import Mathlib

/-!
Verification of the Lucy-android memory store and chat context pipeline.

The definitions below are a shallow embedding of `src/types.ts` and of the
core logic in the `App` component (`src/unnamed/part_000`): the memory store
and its add/filter/search operations, the persistence load, and the chat
send handler.  Machine-level concerns (React rendering, DOM) are out of
scope; state updates are modelled as explicit state passing.
-/

/-- `Category` from types.ts: `'struggles' | 'development' | 'mindset'`. -/
inductive Category
  | struggles
  | development
  | mindset
deriving DecidableEq, Repr

/-- `MemoryValue` from types.ts.  The declared TypeScript type of `details`
is `string[]`, but records loaded from persisted JSON may lack the field
(the app reads it with optional chaining `item.value.details?.some`), so at
runtime the field is `string[] | undefined`; we embed it as
`Option (List String)`. -/
structure MemoryValue where
  description : String
  details : Option (List String)
deriving DecidableEq, Repr

/-- `MemoryItem` from types.ts. -/
structure MemoryItem where
  id : String
  timestamp : String
  value : MemoryValue
deriving DecidableEq, Repr

/-- `MemoryStore` from types.ts: three per-category lists. -/
structure MemoryStore where
  struggles : List MemoryItem
  development : List MemoryItem
  mindset : List MemoryItem
deriving DecidableEq, Repr

/-- `memory[c]`: indexing the store by a category key. -/
def MemoryStore.get (s : MemoryStore) (c : Category) : List MemoryItem :=
  match c with
  | Category.struggles => s.struggles
  | Category.development => s.development
  | Category.mindset => s.mindset

/-- `{ ...memory, [c]: l }`: the spread-update of one category field. -/
def MemoryStore.set (s : MemoryStore) (c : Category) (l : List MemoryItem) : MemoryStore :=
  match c with
  | Category.struggles => { s with struggles := l }
  | Category.development => { s with development := l }
  | Category.mindset => { s with mindset := l }

/-- `DEFAULT_MEMORY` (App, lines 17-21): the empty default store. -/
def DEFAULT_MEMORY : MemoryStore :=
  { struggles := [], development := [], mindset := [] }

/-- The persistence-load of the memory key (App, lines 121-123):
`const storedMemory = localStorage.getItem('lucy_memory');
 if (storedMemory) setMemory(JSON.parse(storedMemory));`
`localStorage.getItem` yields `string | null`, embedded as `Option String`;
the JavaScript truthiness test treats both `null` and `""` as absent.
`JSON.parse` is a platform function, embedded as a parameter
`jsonParse : String → Except String MemoryStore` whose `Except.error` case
is the `SyntaxError` it throws on unparsable input.  The source applies it
with no `try`/`catch`, so a parse error propagates out of `loadMemory`. -/
def loadMemory (jsonParse : String → Except String MemoryStore)
    (stored : Option String) : Except String MemoryStore :=
  match stored with
  | none => Except.ok DEFAULT_MEMORY
  | some s => if s = "" then Except.ok DEFAULT_MEMORY else jsonParse s

/-- JavaScript `s.trim()`: strips leading and trailing whitespace.  The
platform builtin is embedded as a character-list computation so that it is
executable in the kernel. -/
def jsTrim (s : String) : String :=
  ⟨((s.data.dropWhile Char.isWhitespace).reverse.dropWhile Char.isWhitespace).reverse⟩

/-- JavaScript `s.toLowerCase()`: character-wise lowercasing. -/
def jsToLower (s : String) : String :=
  ⟨s.data.map Char.toLower⟩

/-- The error taxonomy entry for malformed `addRecord` input (spec §7). -/
inductive ValidationError
  | emptyDescription
deriving DecidableEq, Repr

/-- Modelled from the spec: the validation guard of `addRecord` lives in
`components/MemoryEntryModal`, which is not among the provided sources;
per spec §4.1 a record may only be created when `description` is non-empty
after trimming, otherwise the operation fails with `ValidationError`.
The accepted path is the `onSave` callback of `App` (lines 505-510): it
builds `{ id, timestamp, value: { description: d, details: det } }` with a
fresh id and timestamp (embedded as the parameters `id`, `ts`), prepends it
to `memory[c]`, and persists the updated store.  The `Except` result
captures that on validation failure nothing is added and nothing is
persisted. -/
def addRecord (store : MemoryStore) (c : Category) (d : String)
    (det : List String) (id ts : String) :
    Except ValidationError (MemoryItem × MemoryStore) :=
  if jsTrim d = "" then Except.error ValidationError.emptyDescription
  else
    let newItem : MemoryItem :=
      { id := id, timestamp := ts, value := { description := d, details := some det } }
    Except.ok (newItem, store.set c (newItem :: store.get c))

/-- `queryAll` (spec §4.2): reading the full current store, i.e. the
`memory` state value. -/
def queryAll (store : MemoryStore) : MemoryStore := store

/-- JavaScript `s.includes(q)`: substring containment. -/
def strIncludes (s q : String) : Bool :=
  decide (q.data <:+: s.data)

/-- The per-item search predicate of `renderJournal` (App, lines 396-402):
empty query matches everything (`if (!journalSearchQuery) return true`),
otherwise a case-insensitive substring match on the description or on some
entry of `details`; `details?.some` yields no match when `details` is
absent. -/
def matchesQuery (journalSearchQuery : String) (item : MemoryItem) : Bool :=
  if journalSearchQuery = "" then true
  else
    let q := jsToLower journalSearchQuery
    let inDesc := strIncludes (jsToLower item.value.description) q
    let inDetails :=
      match item.value.details with
      | none => false
      | some ds => ds.any fun d => strIncludes (jsToLower d) q
    inDesc || inDetails

/-- The journal filter state `journalFilter : Category | 'all'`. -/
inductive JFilter
  | all
  | cat (c : Category)
deriving DecidableEq, Repr

/-- The fixed category traversal order of `renderJournal` (App, line 392). -/
def categoryOrder : List Category :=
  [Category.development, Category.mindset, Category.struggles]

/-- The item sequence produced by `renderJournal` (App, lines 392-421):
the fixed category list is filtered by
`journalFilter === 'all' || journalFilter === cat`, and for each surviving
category the store's list is filtered by the search predicate and rendered
in order, tagged with its category. -/
def renderJournalItems (memory : MemoryStore) (journalFilter : JFilter)
    (journalSearchQuery : String) : List (Category × MemoryItem) :=
  (categoryOrder.filter fun cat =>
      journalFilter == JFilter.all || journalFilter == JFilter.cat cat).flatMap
    fun cat =>
      ((memory.get cat).filter fun item => matchesQuery journalSearchQuery item).map
        fun item => (cat, item)

/-- `search` (spec §4.2): the journal pipeline with the query applied. -/
def search (memory : MemoryStore) (journalFilter : JFilter) (q : String) :
    List (Category × MemoryItem) :=
  renderJournalItems memory journalFilter q

/-- `filterByCategory` (spec §4.2): the journal pipeline with an empty
search query. -/
def filterByCategory (memory : MemoryStore) (journalFilter : JFilter) :
    List (Category × MemoryItem) :=
  renderJournalItems memory journalFilter ""

/-- The match predicate as the spec words it (§4.2): case-insensitive
substring match against `description` OR any entry in `details`; empty
query matches everything.  Kept separate from `matchesQuery` (which is
translated from the source) so the two can be compared. -/
def specMatches (q : String) (item : MemoryItem) : Bool :=
  strIncludes (jsToLower item.value.description) (jsToLower q) ||
    (item.value.details.getD []).any fun d =>
      strIncludes (jsToLower d) (jsToLower q)

-- sanity checks on concrete values
example : matchesQuery "" ⟨"i", "t", ⟨"x", some []⟩⟩ = true := by decide

example : matchesQuery "MORNING" ⟨"i", "t", ⟨"Morning Routine", some []⟩⟩ = true := by
  decide

example : strIncludes "morning routine" "morning" = true := by decide

/-- `ChatMessage.role` from types.ts: `'user' | 'model'`. -/
inductive Role
  | user
  | model
deriving DecidableEq, Repr

/-- `ChatMessage` from types.ts. -/
structure ChatMessage where
  id : String
  role : Role
  text : String
  timestamp : Nat
deriving DecidableEq, Repr

/-- The chat-relevant part of the `App` component state: the transcript
(`chatMessages`), the input box (`inputMessage`) and the in-flight flag
(`isChatLoading`, true exactly in the Awaiting-Response state). -/
structure ChatState where
  chatMessages : List ChatMessage
  inputMessage : String
  isChatLoading : Bool
deriving DecidableEq, Repr

/-- The outcome of one `sendMessageToLucy` call: the awaited response text,
or any thrown error (network failure, malformed payload, ...). -/
inductive BackendResult
  | success (responseText : String)
  | failure
deriving DecidableEq, Repr

/-- The initial chat state (App, lines 113-117): the transcript is seeded
with the single greeting message, the input box is empty and no request is
in flight.  `t0` is the `Date.now()` value at initialization. -/
def initialChatState (t0 : Nat) : ChatState :=
  { chatMessages := [⟨"welcome", Role.model, "Systems online. Lucy ready.", t0⟩],
    inputMessage := "",
    isChatLoading := false }

/-- `handleSendMessage` (App, lines 155-171), one complete run of the
async handler.  The admission gate is
`if (!inputMessage.trim() || isChatLoading) return;`.  On acceptance it
appends the user message (with the untrimmed input text), clears the input,
sets the loading flag, awaits `sendMessageToLucy` — whose outcome is the
`result` parameter — and appends either the response or the fixed
`"Connection Error."` message, finally clearing the loading flag.  The
fresh `crypto.randomUUID()` values and `Date.now()` readings are the
parameters `uid1 uid2 t1 t2`.  The returned `Bool` records whether the
backend was invoked at all (`false` on the rejected no-op path). -/
def handleSendMessage (st : ChatState) (result : BackendResult)
    (uid1 uid2 : String) (t1 t2 : Nat) : ChatState × Bool :=
  if jsTrim st.inputMessage = "" ∨ st.isChatLoading = true then (st, false)
  else
    let userMsg : ChatMessage := ⟨uid1, Role.user, st.inputMessage, t1⟩
    let afterUser : ChatState :=
      { chatMessages := st.chatMessages ++ [userMsg],
        inputMessage := "",
        isChatLoading := true }
    let reply : ChatMessage :=
      match result with
      | BackendResult.success responseText => ⟨uid2, Role.model, responseText, t2⟩
      | BackendResult.failure => ⟨uid2, Role.model, "Connection Error.", t2⟩
    ({ afterUser with
        chatMessages := afterUser.chatMessages ++ [reply],
        isChatLoading := false }, true)

/-- An externally observable chat event: the user edits the input box
(`setInputMessage` via the text field), or triggers `handleSendMessage`
and the resulting request completes with `result`. -/
inductive ChatEvent
  | setInput (s : String)
  | send (result : BackendResult) (uid1 uid2 : String) (t1 t2 : Nat)

/-- One chat event applied to the state. -/
def stepChat (st : ChatState) (e : ChatEvent) : ChatState :=
  match e with
  | ChatEvent.setInput s => { st with inputMessage := s }
  | ChatEvent.send r uid1 uid2 t1 t2 => (handleSendMessage st r uid1 uid2 t1 t2).1

/-- The chat state reached from startup after a sequence of events. -/
def runChat (t0 : Nat) (evs : List ChatEvent) : ChatState :=
  evs.foldl stepChat (initialChatState t0)

/-- `n` repetitions of the role pair `user, model`. -/
def rolePairs : Nat → List Role
  | 0 => []
  | n + 1 => Role.user :: Role.model :: rolePairs n

/-- A transcript is well formed when its roles are the greeting's `model`
followed by strictly alternating `user, model` pairs. -/
def transcriptOk (msgs : List ChatMessage) : Prop :=
  ∃ n, msgs.map (fun m => m.role) = Role.model :: rolePairs n

/-! ## Helper lemmas -/

lemma MemoryStore.get_set_same (s : MemoryStore) (c : Category) (l : List MemoryItem) :
    (s.set c l).get c = l := by
  cases c <;> rfl

lemma MemoryStore.get_set_other (s : MemoryStore) (c c2 : Category)
    (l : List MemoryItem) (h : c2 ≠ c) : (s.set c l).get c2 = s.get c2 := by
  cases c <;> cases c2 <;> first | rfl | exact absurd rfl h

lemma matchesQuery_empty (item : MemoryItem) : matchesQuery "" item = true := rfl

lemma addRecord_ok (store : MemoryStore) (c : Category) (d : String)
    (det : List String) (id ts : String) (h : ¬ jsTrim d = "") :
    addRecord store c d det id ts =
      Except.ok (⟨id, ts, ⟨d, some det⟩⟩,
        store.set c (⟨id, ts, ⟨d, some det⟩⟩ :: store.get c)) := by
  simp [addRecord, h]

lemma filterByCategory_cat (store : MemoryStore) (c : Category) :
    filterByCategory store (JFilter.cat c) = (store.get c).map fun i => (c, i) := by
  cases c <;>
    simp [filterByCategory, renderJournalItems, categoryOrder, matchesQuery,
      MemoryStore.get]

/-! ## Claims about the memory store -/

/-- C2: `addRecord` with a description that is empty or whitespace-only
after trimming fails with `ValidationError` and, the result being an
`Except.error`, produces no updated store: nothing is added to any
category and nothing is persisted. -/
theorem addRecord_rejects_blank_description (store : MemoryStore) (c : Category)
    (d : String) (det : List String) (id ts : String) (h : jsTrim d = "") :
    addRecord store c d det id ts = Except.error ValidationError.emptyDescription := by
  simp [addRecord, h]

/-- Witness for C2 at a concrete whitespace-only description. -/
theorem addRecord_rejects_blank_description_witness :
    addRecord DEFAULT_MEMORY Category.struggles "   " [] "u1" "t1"
      = Except.error ValidationError.emptyDescription :=
  addRecord_rejects_blank_description DEFAULT_MEMORY Category.struggles "   " [] "u1"
    "t1" (by decide)

/-- C3: for every valid input, `addRecord` followed by `queryAll` yields a
store whose list for the chosen category has exactly one more item, the
new item carries the given description and details, it is the new head of
that category, and the other two categories are unchanged. -/
theorem addRecord_appends_one (store : MemoryStore) (c : Category) (d : String)
    (det : List String) (id ts : String) (h : ¬ jsTrim d = "") :
    ∃ item store2,
      addRecord store c d det id ts = Except.ok (item, store2) ∧
      item.value.description = d ∧
      item.value.details = some det ∧
      ((queryAll store2).get c).length = ((queryAll store).get c).length + 1 ∧
      (queryAll store2).get c = item :: (queryAll store).get c ∧
      ∀ c2 : Category, c2 ≠ c → (queryAll store2).get c2 = (queryAll store).get c2 := by
  refine ⟨⟨id, ts, ⟨d, some det⟩⟩,
    store.set c (⟨id, ts, ⟨d, some det⟩⟩ :: store.get c),
    addRecord_ok store c d det id ts h, rfl, rfl, ?_, ?_, ?_⟩
  · simp [queryAll, MemoryStore.get_set_same]
  · simp [queryAll, MemoryStore.get_set_same]
  · intro c2 hc2
    simp [queryAll, MemoryStore.get_set_other store c c2 _ hc2]

/-- Witness for C3 at a concrete valid record. -/
theorem addRecord_appends_one_witness :
    ∃ item store2,
      addRecord DEFAULT_MEMORY Category.mindset "stay calm" ["breathe"] "u1" "t1"
        = Except.ok (item, store2) ∧
      item.value.description = "stay calm" ∧
      item.value.details = some ["breathe"] ∧
      ((queryAll store2).get Category.mindset).length
        = ((queryAll DEFAULT_MEMORY).get Category.mindset).length + 1 ∧
      (queryAll store2).get Category.mindset
        = item :: (queryAll DEFAULT_MEMORY).get Category.mindset ∧
      ∀ c2 : Category, c2 ≠ Category.mindset →
        (queryAll store2).get c2 = (queryAll DEFAULT_MEMORY).get c2 :=
  addRecord_appends_one DEFAULT_MEMORY Category.mindset "stay calm" ["breathe"] "u1"
    "t1" (by decide)

/-- C4: after adding "A" and then "B" to the same category, the category
filter lists B before A — new items are prepended, newest first. -/
theorem filterByCategory_newest_first (store : MemoryStore) (c : Category)
    (id1 ts1 id2 ts2 : String) :
    ∃ i1 s1 i2 s2 rest,
      addRecord store c "A" [] id1 ts1 = Except.ok (i1, s1) ∧
      addRecord s1 c "B" [] id2 ts2 = Except.ok (i2, s2) ∧
      i2.value.description = "B" ∧ i1.value.description = "A" ∧
      filterByCategory s2 (JFilter.cat c) = (c, i2) :: (c, i1) :: rest := by
  refine ⟨⟨id1, ts1, ⟨"A", some []⟩⟩, _, ⟨id2, ts2, ⟨"B", some []⟩⟩, _,
    ((store.get c).map fun i => (c, i)),
    addRecord_ok store c "A" [] id1 ts1 (by decide),
    addRecord_ok _ c "B" [] id2 ts2 (by decide), rfl, rfl, ?_⟩
  rw [filterByCategory_cat, MemoryStore.get_set_same, MemoryStore.get_set_same]
  simp

/-- C5: with the `'all'` filter and no search query, the journal yields the
three category lists grouped in the fixed order development, mindset,
struggles, each preserving its internal order, and its length is the sum
of the three per-category counts. -/
theorem filterByCategory_all_grouping (store : MemoryStore) :
    filterByCategory store JFilter.all
        = ((store.development.map fun i => (Category.development, i))
            ++ (store.mindset.map fun i => (Category.mindset, i)))
          ++ (store.struggles.map fun i => (Category.struggles, i)) ∧
    (filterByCategory store JFilter.all).length
        = store.development.length + store.mindset.length + store.struggles.length := by
  constructor
  · simp [filterByCategory, renderJournalItems, categoryOrder, matchesQuery,
      MemoryStore.get]
  · simp [filterByCategory, renderJournalItems, categoryOrder, matchesQuery,
      MemoryStore.get]
    omega

lemma strIncludes_empty_query (s : String) : strIncludes s "" = true := by
  simp [strIncludes]

lemma matchesQuery_eq_specMatches (q : String) (item : MemoryItem) :
    matchesQuery q item = specMatches q item := by
  by_cases hq : q = ""
  · subst hq
    simp [matchesQuery, specMatches, strIncludes_empty_query, jsToLower]
  · cases hd : item.value.details <;>
      simp [matchesQuery, specMatches, hq, hd]

lemma filter_search_map (c : Category) (l : List MemoryItem) (q : String) :
    ((l.filter fun item => matchesQuery q item).map fun item => (c, item))
      = (((l.filter fun item => matchesQuery "" item).map fun item => (c, item)).filter
          fun p => specMatches q p.2) := by
  induction l with
  | nil => rfl
  | cons i l ih =>
    have hmi := matchesQuery_eq_specMatches q i
    cases h : matchesQuery q i <;>
      simp [List.filter_cons, matchesQuery_empty, ← hmi, h, ih]

/-- C6: searching composes with the category filter — the journal pipeline
with query `q` equals the category-filtered sequence restricted to the
items matching `q` (case-insensitive substring of the description or of
some details entry, the spec-side predicate `specMatches`); and with the
empty query, `search` coincides with `filterByCategory`. -/
theorem search_composes_with_filter (store : MemoryStore) (filt : JFilter)
    (q : String) :
    search store filt q
        = (filterByCategory store filt).filter (fun p => specMatches q p.2) ∧
      search store filt "" = filterByCategory store filt := by
  refine ⟨?_, rfl⟩
  have hfun :
      (fun cat =>
          ((store.get cat).filter fun item => matchesQuery q item).map
            fun item => (cat, item))
        = fun cat =>
            (((store.get cat).filter fun item => matchesQuery "" item).map
                fun item => (cat, item)).filter fun p => specMatches q p.2 :=
    funext fun cat => filter_search_map cat (store.get cat) q
  simp only [search, filterByCategory, renderJournalItems, List.filter_flatMap]
  rw [hfun]

/-- C10: for a record whose `details` field is absent (older persisted
data), the search predicate is still defined — the optional chaining
`details?.some` contributes no match — and the record matches exactly when
its description contains the query case-insensitively. -/
theorem matchesQuery_total_absent_details (q : String) (item : MemoryItem)
    (h : item.value.details = none) :
    matchesQuery q item
      = strIncludes (jsToLower item.value.description) (jsToLower q) := by
  by_cases hq : q = ""
  · subst hq
    simp [matchesQuery, strIncludes, jsToLower]
  · simp [matchesQuery, hq, h]

/-- Witness for C10 at a concrete record with absent details. -/
theorem matchesQuery_total_absent_details_witness :
    matchesQuery "calm" ⟨"i", "t", ⟨"Stay Calm", none⟩⟩
        = strIncludes (jsToLower "Stay Calm") (jsToLower "calm") ∧
      matchesQuery "calm" ⟨"i", "t", ⟨"Stay Calm", none⟩⟩ = true :=
  ⟨matchesQuery_total_absent_details "calm" ⟨"i", "t", ⟨"Stay Calm", none⟩⟩ rfl,
    by decide⟩

/-! ## Claims about the chat controller -/

lemma handleSendMessage_accepted (st : ChatState) (result : BackendResult)
    (uid1 uid2 : String) (t1 t2 : Nat) (hne : ¬ jsTrim st.inputMessage = "")
    (hidle : st.isChatLoading = false) :
    handleSendMessage st result uid1 uid2 t1 t2 =
      ({ chatMessages := st.chatMessages
            ++ [⟨uid1, Role.user, st.inputMessage, t1⟩,
                match result with
                | BackendResult.success responseText =>
                    ⟨uid2, Role.model, responseText, t2⟩
                | BackendResult.failure =>
                    ⟨uid2, Role.model, "Connection Error.", t2⟩],
          inputMessage := "",
          isChatLoading := false }, true) := by
  have hcond : ¬ (jsTrim st.inputMessage = "" ∨ st.isChatLoading = true) := by
    simp [hne, hidle]
  unfold handleSendMessage
  rw [if_neg hcond]
  cases result <;> simp

/-- C7: `handleSendMessage` is a no-op when a request is already in flight
(`isChatLoading`) or when the input is empty/whitespace-only after
trimming: the state is returned unchanged — in particular the transcript
length does not increase — and the backend is not invoked. -/
theorem handleSendMessage_noop_when_busy_or_blank (st : ChatState)
    (result : BackendResult) (uid1 uid2 : String) (t1 t2 : Nat)
    (h : jsTrim st.inputMessage = "" ∨ st.isChatLoading = true) :
    handleSendMessage st result uid1 uid2 t1 t2 = (st, false) ∧
      ((handleSendMessage st result uid1 uid2 t1 t2).1.chatMessages).length
        = st.chatMessages.length := by
  have heq : handleSendMessage st result uid1 uid2 t1 t2 = (st, false) := by
    unfold handleSendMessage
    rw [if_pos h]
  exact ⟨heq, by rw [heq]⟩

/-- Witness for C7: a send during Awaiting-Response is rejected. -/
theorem handleSendMessage_noop_when_busy_or_blank_witness :
    handleSendMessage ⟨[⟨"welcome", Role.model, "Systems online. Lucy ready.", 0⟩],
        "hello", true⟩ BackendResult.failure "u1" "u2" 1 2
      = (⟨[⟨"welcome", Role.model, "Systems online. Lucy ready.", 0⟩],
          "hello", true⟩, false) ∧
    ((handleSendMessage ⟨[⟨"welcome", Role.model, "Systems online. Lucy ready.", 0⟩],
          "hello", true⟩ BackendResult.failure "u1" "u2" 1 2).1.chatMessages).length
      = ([⟨"welcome", Role.model, "Systems online. Lucy ready.", 0⟩] :
          List ChatMessage).length :=
  handleSendMessage_noop_when_busy_or_blank
    ⟨[⟨"welcome", Role.model, "Systems online. Lucy ready.", 0⟩], "hello", true⟩
    BackendResult.failure "u1" "u2" 1 2 (Or.inr rfl)

/-- C8: on an accepted message whose backend call fails, the transcript's
last message is a `model` message with the fixed text
`"Connection Error."`, the controller returns to Idle
(`isChatLoading = false`), and a subsequent send with non-blank input is
accepted (the backend is invoked). -/
theorem handleSendMessage_failure_path (st : ChatState) (uid1 uid2 : String)
    (t1 t2 : Nat) (hne : ¬ jsTrim st.inputMessage = "")
    (hidle : st.isChatLoading = false) :
    (handleSendMessage st BackendResult.failure uid1 uid2 t1 t2).2 = true ∧
    ((handleSendMessage st BackendResult.failure uid1 uid2 t1
          t2).1.chatMessages.getLast?).map (fun m => (m.role, m.text))
      = some (Role.model, "Connection Error.") ∧
    (handleSendMessage st BackendResult.failure uid1 uid2 t1 t2).1.isChatLoading
      = false ∧
    ∀ (t uid3 uid4 : String) (t3 t4 : Nat) (res : BackendResult),
      ¬ jsTrim t = "" →
      (handleSendMessage
          { (handleSendMessage st BackendResult.failure uid1 uid2 t1 t2).1 with
              inputMessage := t } res uid3 uid4 t3 t4).2 = true := by
  rw [handleSendMessage_accepted st BackendResult.failure uid1 uid2 t1 t2 hne hidle]
  refine ⟨rfl, ?_, rfl, ?_⟩
  · rw [List.getLast?_append_cons]
    rfl
  · intro t uid3 uid4 t3 t4 res ht
    rw [handleSendMessage_accepted _ res uid3 uid4 t3 t4 ht rfl]

/-- Witness for C8 at a concrete idle state with non-blank input. -/
theorem handleSendMessage_failure_path_witness :
    (handleSendMessage ⟨[⟨"welcome", Role.model, "Systems online. Lucy ready.", 0⟩],
        "hello", false⟩ BackendResult.failure "u1" "u2" 1 2).2 = true ∧
    ((handleSendMessage ⟨[⟨"welcome", Role.model, "Systems online. Lucy ready.", 0⟩],
          "hello", false⟩ BackendResult.failure "u1" "u2" 1
          2).1.chatMessages.getLast?).map (fun m => (m.role, m.text))
      = some (Role.model, "Connection Error.") ∧
    (handleSendMessage ⟨[⟨"welcome", Role.model, "Systems online. Lucy ready.", 0⟩],
        "hello", false⟩ BackendResult.failure "u1" "u2" 1 2).1.isChatLoading
      = false ∧
    (handleSendMessage
        { (handleSendMessage
              ⟨[⟨"welcome", Role.model, "Systems online. Lucy ready.", 0⟩],
                "hello", false⟩ BackendResult.failure "u1" "u2" 1 2).1 with
            inputMessage := "again" }
        (BackendResult.success "ok") "u3" "u4" 3 4).2 = true := by
  have h := handleSendMessage_failure_path
    ⟨[⟨"welcome", Role.model, "Systems online. Lucy ready.", 0⟩], "hello", false⟩
    "u1" "u2" 1 2 (by decide) rfl
  exact ⟨h.1, h.2.1, h.2.2.1,
    h.2.2.2 "again" "u3" "u4" 3 4 (BackendResult.success "ok") (by decide)⟩

lemma rolePairs_append (n : Nat) :
    rolePairs n ++ [Role.user, Role.model] = rolePairs (n + 1) := by
  induction n with
  | zero => rfl
  | succ n ih => simp [rolePairs, List.cons_append, ih]

lemma rolePairs_length (n : Nat) : (rolePairs n).length = 2 * n := by
  induction n with
  | zero => rfl
  | succ n ih =>
    simp [rolePairs, ih]
    omega

/-- The chat controller invariant at Idle observation points: a well formed
transcript and no request in flight. -/
def chatInv (st : ChatState) : Prop :=
  transcriptOk st.chatMessages ∧ st.isChatLoading = false

lemma stepChat_preserves (st : ChatState) (e : ChatEvent) (h : chatInv st) :
    chatInv (stepChat st e) := by
  obtain ⟨⟨n, hroles⟩, hidle⟩ := h
  cases e with
  | setInput s => exact ⟨⟨n, hroles⟩, hidle⟩
  | send r uid1 uid2 t1 t2 =>
    by_cases hc : jsTrim st.inputMessage = "" ∨ st.isChatLoading = true
    · have heq : handleSendMessage st r uid1 uid2 t1 t2 = (st, false) := by
        unfold handleSendMessage
        rw [if_pos hc]
      rw [stepChat, heq]
      exact ⟨⟨n, hroles⟩, hidle⟩
    · push_neg at hc
      obtain ⟨hne, hload⟩ := hc
      have hidle2 : st.isChatLoading = false := by
        cases hb : st.isChatLoading
        · rfl
        · exact absurd hb hload
      rw [stepChat, handleSendMessage_accepted st r uid1 uid2 t1 t2 hne hidle2]
      refine ⟨⟨n + 1, ?_⟩, rfl⟩
      cases r <;> simp [List.map_append, hroles, ← rolePairs_append]

lemma runChat_inv (t0 : Nat) (evs : List ChatEvent) : chatInv (runChat t0 evs) := by
  have hgen : ∀ st : ChatState, chatInv st → chatInv (evs.foldl stepChat st) := by
    induction evs with
    | nil => exact fun st h => h
    | cons e evs ih => exact fun st h => ih _ (stepChat_preserves st e h)
  exact hgen _ ⟨⟨0, rfl⟩, rfl⟩

/-- C9: the transcript starts as the single greeting; every accepted send
appends exactly a `user` message followed by one `model` message; hence
in every reachable Idle state the transcript length is odd and the roles
after the greeting strictly alternate `user`, `model`. -/
theorem transcript_parity_invariant (t0 : Nat) :
    (initialChatState t0).chatMessages.map (fun m => (m.role, m.text))
        = [(Role.model, "Systems online. Lucy ready.")] ∧
    (∀ (st : ChatState) (r : BackendResult) (uid1 uid2 : String) (t1 t2 : Nat),
        ¬ jsTrim st.inputMessage = "" → st.isChatLoading = false →
        (handleSendMessage st r uid1 uid2 t1 t2).1.chatMessages.map (fun m => m.role)
          = st.chatMessages.map (fun m => m.role) ++ [Role.user, Role.model]) ∧
    ∀ evs : List ChatEvent,
      transcriptOk (runChat t0 evs).chatMessages ∧
      (runChat t0 evs).chatMessages.length % 2 = 1 ∧
      (runChat t0 evs).isChatLoading = false := by
  refine ⟨rfl, ?_, ?_⟩
  · intro st r uid1 uid2 t1 t2 hne hidle
    rw [handleSendMessage_accepted st r uid1 uid2 t1 t2 hne hidle]
    cases r <;> simp
  · intro evs
    obtain ⟨⟨n, hroles⟩, hidle⟩ := runChat_inv t0 evs
    refine ⟨⟨n, hroles⟩, ?_, hidle⟩
    have hlen : (runChat t0 evs).chatMessages.length = 2 * n + 1 := by
      have hmap := congrArg List.length hroles
      simpa [rolePairs_length] using hmap
    omega

/-- Witness for C9: an accepted send from a concrete state appends the
role pair `user`, `model`. -/
theorem transcript_parity_invariant_witness :
    (handleSendMessage ⟨[⟨"welcome", Role.model, "Systems online. Lucy ready.", 0⟩],
          "hi", false⟩ BackendResult.failure "u1" "u2" 1 2).1.chatMessages.map
        (fun m => m.role)
      = ([⟨"welcome", Role.model, "Systems online. Lucy ready.", 0⟩] :
            List ChatMessage).map (fun m => m.role) ++ [Role.user, Role.model] :=
  (transcript_parity_invariant 0).2.1
    ⟨[⟨"welcome", Role.model, "Systems online. Lucy ready.", 0⟩], "hi", false⟩
    BackendResult.failure "u1" "u2" 1 2 (by decide) rfl

/-! ## Claim about persistence loading -/

/-- C1 (counter-evidence): `loadMemory` does fall back to the default
store when the stored value is absent, but on a present unparsable value
the `JSON.parse` error propagates — the source has no `try`/`catch` around
`JSON.parse(storedMemory)` — contradicting the claim that `load()` never
raises and yields the empty default store on corrupt data. -/
theorem load_propagates_parse_error
    (jsonParse : String → Except String MemoryStore) (s e : String)
    (hs : ¬ s = "") (hp : jsonParse s = Except.error e) :
    loadMemory jsonParse none = Except.ok DEFAULT_MEMORY ∧
      loadMemory jsonParse (some s) = Except.error e := by
  refine ⟨rfl, ?_⟩
  show (if s = "" then Except.ok DEFAULT_MEMORY else jsonParse s) = Except.error e
  rw [if_neg hs, hp]

/-- Witness for C1's counter-evidence: a parse function that, as
`JSON.parse` does on the input `"not json"`, reports a syntax error. -/
theorem load_propagates_parse_error_witness :
    loadMemory (fun _ => Except.error "SyntaxError") none = Except.ok DEFAULT_MEMORY ∧
      loadMemory (fun _ => Except.error "SyntaxError") (some "not json")
        = Except.error "SyntaxError" :=
  load_propagates_parse_error (fun _ => Except.error "SyntaxError") "not json"
    "SyntaxError" (by decide) rfl
